import Mathlib

/-!
Verification of the Homa operation-lifecycle layer (`src/Op/Op.cc`).

The development shallowly embeds the data model and the operations of the
file: message buffers become records carrying their lifecycle status together
with counters for the observable collaborator calls (`acknowledge`, `fail`,
`cancel`, `release`, `prepend`, `send`); the two operation handles `RemoteOp`
and `ServerOp` become records over those buffers; `OpManager` becomes a record
holding the remote-op registry, the pending FIFO and the detached list.
C++ null pointers become `Option`; a C++ `assert` that would fail (and the
unreachable `PANIC` arms) become `Option.none` results.
-/

set_option autoImplicit false

namespace Homa

/-- Lifecycle status of an outbound message buffer (`OutMessage::Status`). -/
inductive OutStatus where
  | NOT_STARTED
  | SENT
  | COMPLETED
  | FAILED
deriving DecidableEq

/-- States of a `RemoteOp` (`RemoteOp::State`). -/
inductive RState where
  | NOT_STARTED
  | IN_PROGRESS
  | COMPLETED
  | FAILED
deriving DecidableEq

/-- States of a `ServerOp` (`ServerOp::State`). -/
inductive SState where
  | NOT_STARTED
  | IN_PROGRESS
  | COMPLETED
  | DROPPED
  | FAILED
deriving DecidableEq

/-- Operation identifier (`Protocol::OpId`): owning transport id plus a
per-transport sequence number. -/
structure OpId where
  transportId : Nat
  sequenceNumber : Nat
deriving DecidableEq

/-- The default-constructed `Protocol::OpId()`. -/
def OpId.default : OpId := ⟨0, 0⟩

/-- Wire header (`Protocol::Message::Header`): operation id, stage id and the
driver-encoded reply address. Addresses and their wire encodings are modelled
as natural numbers. -/
structure MessageHeader where
  opId : OpId
  stageId : Nat
  replyAddress : Nat
deriving DecidableEq

/-- Modelled from the spec: stage id `0` denotes the initial request
(`Protocol::Message::INITIAL_REQUEST_ID`; the `Protocol` header is not among
the excerpted sources). -/
def INITIAL_REQUEST_ID : Nat := 0

/-- Modelled from the spec: the distinguished maximum sentinel stage id that
marks the ultimate/final response (`Protocol::Message::ULTIMATE_RESPONSE_ID`;
the `Protocol` header is not among the excerpted sources). Taken as the
maximum of a 32-bit stage field; the development only compares stage ids with
it for equality, so the exact value is immaterial. -/
def ULTIMATE_RESPONSE_ID : Nat := 4294967295

/-- Size in bytes of the wire header (`sizeof(Protocol::Message::Header)`);
the development only threads this constant through `reserve` calls, so the
exact value is immaterial. -/
def sizeofHeader : Nat := 32

/-- An inbound message buffer (`InMessage`, external collaborator). The
header it carries is read with `get` and removed with `strip`; `dropped` is
the transport's delivery-disappearance flag; the counters record how often
`acknowledge` and `fail` were invoked, and `released` whether the buffer was
returned to the transport. -/
structure InMessage where
  header : MessageHeader
  stripped : Bool
  droppedFlag : Bool
  ackCount : Nat
  failCount : Nat
  released : Bool
deriving DecidableEq

/-- `InMessage::dropped()`. -/
def InMessage.dropped (m : InMessage) : Bool := m.droppedFlag

/-- `InMessage::strip(sizeof(Header))`. -/
def InMessage.strip (m : InMessage) : InMessage := { m with stripped := true }

/-- `InMessage::acknowledge()`. -/
def InMessage.acknowledge (m : InMessage) : InMessage :=
  { m with ackCount := m.ackCount + 1 }

/-- `InMessage::fail()`. -/
def InMessage.fail (m : InMessage) : InMessage :=
  { m with failCount := m.failCount + 1 }

/-- `InMessage::release()`. -/
def InMessage.release (m : InMessage) : InMessage := { m with released := true }

/-- An outbound message buffer (`OutMessage`, external collaborator). The
status field is driven by the transport; `prepends` records the headers
prepended (most recent first), `sends` the destinations passed to `send` in
order, `cancelCount` how often `cancel` was invoked and `released` whether the
buffer was returned to the transport. -/
structure OutMessage where
  status : OutStatus
  reserved : Nat
  prepends : List MessageHeader
  sends : List Nat
  cancelCount : Nat
  released : Bool
deriving DecidableEq

/-- `Transport::alloc()`: a fresh outbound buffer. -/
def OutMessage.allocFresh : OutMessage :=
  ⟨OutStatus.NOT_STARTED, 0, [], [], 0, false⟩

/-- `OutMessage::reserve(n)`. -/
def OutMessage.reserve (m : OutMessage) (n : Nat) : OutMessage :=
  { m with reserved := n }

/-- `OutMessage::prepend(&header, sizeof(header))`. -/
def OutMessage.prepend (m : OutMessage) (h : MessageHeader) : OutMessage :=
  { m with prepends := h :: m.prepends }

/-- `OutMessage::send(destination)`. -/
def OutMessage.send (m : OutMessage) (destination : Nat) : OutMessage :=
  { m with sends := m.sends ++ [destination] }

/-- `OutMessage::cancel()`. -/
def OutMessage.cancel (m : OutMessage) : OutMessage :=
  { m with cancelCount := m.cancelCount + 1 }

/-- `OutMessage::release()`. -/
def OutMessage.release (m : OutMessage) : OutMessage := { m with released := true }

/-- The driver collaborator: the local address, decoding of a wire-format
address (`Driver::getAddress`) and encoding of an address into wire format
(`Driver::addressToWireFormat`). -/
structure Driver where
  localAddress : Nat
  getAddress : Nat → Nat
  addressToWireFormat : Nat → Nat

/-- A server-side operation handle (`ServerOp`). `request`/`response` are the
owned buffers (`none` models a C++ null pointer); `transport` records whether
the back-reference to the owning `OpManager` is set. -/
structure ServerOp where
  request : Option InMessage
  response : Option OutMessage
  transport : Bool
  state : SState
  detached : Bool
  opId : OpId
  stageId : Nat
  replyAddress : Nat
  delegated : Bool
deriving DecidableEq

/-- The default-constructed (empty) `ServerOp`. -/
def ServerOp.empty : ServerOp :=
  ⟨none, none, false, SState.NOT_STARTED, false, OpId.default, 0, 0, false⟩

/-- `ServerOp::operator bool()`: non-empty iff the request buffer is set. -/
def ServerOp.nonEmpty (op : ServerOp) : Bool := op.request.isSome

/-- The local `outState` read at the top of `ServerOp::makeProgress`: the
response buffer's status, or `NOT_STARTED` when there is no response buffer. -/
def ServerOp.outState (op : ServerOp) : OutStatus :=
  match op.response with
  | some r => r.status
  | none => OutStatus.NOT_STARTED

/-- `ServerOp::makeProgress()`. Returns the resulting state (the final
`state.load()`) together with the updated handle; `none` models a failing
`assert(request != nullptr)`. The status of a null response buffer reads as
`NOT_STARTED`, exactly as in the source. -/
def ServerOp.makeProgress (op : ServerOp) : Option (SState × ServerOp) :=
  let outState : OutStatus := op.outState
  match op.state with
  | SState.NOT_STARTED => some (SState.NOT_STARTED, op)
  | SState.IN_PROGRESS =>
    match op.request with
    | none => none
    | some req =>
      if req.dropped then
        some (SState.DROPPED, { op with state := SState.DROPPED })
      else if outState = OutStatus.COMPLETED ∨
          (outState = OutStatus.SENT ∧ op.delegated = false) then
        let req' := if op.stageId ≠ INITIAL_REQUEST_ID then req.acknowledge else req
        some (SState.COMPLETED,
          { op with state := SState.COMPLETED, request := some req' })
      else if outState = OutStatus.FAILED then
        some (SState.FAILED,
          { op with state := SState.FAILED,
                    response := Option.map OutMessage.cancel op.response })
      else
        some (SState.IN_PROGRESS, op)
  | SState.COMPLETED => some (SState.COMPLETED, op)
  | SState.DROPPED => some (SState.DROPPED, op)
  | SState.FAILED =>
    if op.detached then
      match op.request with
      | none => none
      | some req => some (SState.FAILED, { op with request := some req.fail })
    else
      some (SState.FAILED, op)

/-- Iterated `makeProgress`: `n` successive calls on the same handle. -/
def ServerOp.makeProgressIter : Nat → ServerOp → Option ServerOp
  | 0, op => some op
  | n + 1, op =>
    match op.makeProgress with
    | none => none
    | some (_, op') => ServerOp.makeProgressIter n op'

/-- `ServerOp::reply()`: prepend a header carrying the ultimate-response
stage marker and send the response to the recorded reply address. The
returned flag records whether the empty-op diagnostic was emitted; `none`
models the null-response dereference that the source would perform on a
non-empty op that was never claimed. -/
def ServerOp.reply (driver : Driver) (op : ServerOp) : Option (ServerOp × Bool) :=
  match op.request with
  | some _ =>
    match op.response with
    | none => none
    | some resp =>
      let header : MessageHeader :=
        ⟨op.opId, ULTIMATE_RESPONSE_ID, driver.addressToWireFormat op.replyAddress⟩
      some ({ op with response := some ((resp.prepend header).send op.replyAddress) },
            false)
  | none => some (op, true)

/-- `ServerOp::delegate(destination)`: mark the op delegated, prepend a header
carrying `stageId + 1` and send the response to `destination`. The returned
flag records whether the empty-op diagnostic was emitted; `none` models the
null-response dereference that the source would perform on a non-empty op
that was never claimed. -/
def ServerOp.delegate (driver : Driver) (op : ServerOp) (destination : Nat) :
    Option (ServerOp × Bool) :=
  match op.request with
  | some _ =>
    match op.response with
    | none => none
    | some resp =>
      let header : MessageHeader :=
        ⟨op.opId, op.stageId + 1, driver.addressToWireFormat op.replyAddress⟩
      some ({ op with delegated := true,
                      response := some ((resp.prepend header).send destination) },
            false)
  | none => some (op, true)

/-- A client-side operation handle (`RemoteOp`). The request buffer is always
present after construction; the response is `none` until one arrives. -/
structure RemoteOpM where
  request : OutMessage
  response : Option InMessage
  state : RState
  opId : OpId
deriving DecidableEq

/-- The `RemoteOp(transport)` constructor: a fresh request buffer with header
space reserved, no response, state `NOT_STARTED`, default op id. -/
def RemoteOpM.fresh : RemoteOpM :=
  ⟨OutMessage.allocFresh.reserve sizeofHeader, none, RState.NOT_STARTED, OpId.default⟩

/-- `RemoteOp::isReady()`: the returned flag together with the (possibly
lazily failed) handle. -/
def RemoteOpM.isReady (op : RemoteOpM) : Bool × RemoteOpM :=
  match op.state with
  | RState.NOT_STARTED => (false, op)
  | RState.IN_PROGRESS =>
    if op.request.status = OutStatus.FAILED then
      (true, { op with state := RState.FAILED })
    else
      (false, op)
  | RState.COMPLETED => (true, op)
  | RState.FAILED => (true, op)

/-- The `OpManager` shared registry (`OpManagerInternal` members): the
remote-op map (an association list keyed by `OpId`; the source map holds raw
pointers, modelled here by value), the pending FIFO, the detached list and the
next sequence number. `releasedMessages` records the inbound buffers that
`poll` released because no `RemoteOp` was waiting for them. -/
structure OpManagerS where
  transportId : Nat
  nextOpSequenceNumber : Nat
  remoteOps : List (OpId × RemoteOpM)
  pendingServerOps : List ServerOp
  detachedServerOps : List ServerOp
  releasedMessages : List InMessage
deriving DecidableEq

/-- `std::unordered_map::find` on the remote-op registry. -/
def assocFind (l : List (OpId × RemoteOpM)) (k : OpId) : Option RemoteOpM :=
  match l with
  | [] => none
  | (k', v) :: rest => if k' = k then some v else assocFind rest k

/-- Mutation through the pointer `find` returned: replace the entry at `k`. -/
def assocUpdate (l : List (OpId × RemoteOpM)) (k : OpId) (v : RemoteOpM) :
    List (OpId × RemoteOpM) :=
  match l with
  | [] => []
  | (k', v') :: rest =>
    if k' = k then (k', v) :: rest else (k', v') :: assocUpdate rest k v

/-- The per-message body of the drain loop in `OpManager::poll()`: parse and
strip the header; route an ultimate response to the registered `RemoteOp`
(attach, cancel its request, complete it) or release it when none is
registered; wrap any other message into a fresh pending `ServerOp`. -/
def OpManagerS.processMessage (driver : Driver) (m : OpManagerS)
    (message : InMessage) : OpManagerS :=
  let header := message.header
  let message := message.strip
  if header.stageId = ULTIMATE_RESPONSE_ID then
    match assocFind m.remoteOps header.opId with
    | some rop =>
      let rop' : RemoteOpM :=
        { rop with response := some message,
                   request := rop.request.cancel,
                   state := RState.COMPLETED }
      { m with remoteOps := assocUpdate m.remoteOps header.opId rop' }
    | none =>
      { m with releasedMessages := m.releasedMessages ++ [message.release] }
  else
    let op : ServerOp :=
      { ServerOp.empty with
          request := some message,
          opId := header.opId,
          stageId := header.stageId,
          replyAddress := driver.getAddress header.replyAddress }
    { m with pendingServerOps := m.pendingServerOps ++ [op] }

/-- `OpManager::receiveServerOp()`: pop the oldest pending entry (or return
the empty op), allocate its response buffer with header space reserved, set
the manager back-reference and move it to `IN_PROGRESS`. -/
def OpManagerS.receiveServerOp (m : OpManagerS) : ServerOp × OpManagerS :=
  match m.pendingServerOps with
  | [] => (ServerOp.empty, m)
  | front :: rest =>
    let op : ServerOp :=
      { front with
          response := some (OutMessage.allocFresh.reserve sizeofHeader),
          transport := true,
          state := SState.IN_PROGRESS }
    (op, { m with pendingServerOps := rest })

/-- `n` successive `receiveServerOp` calls, oldest first. -/
def OpManagerS.receiveMany : Nat → OpManagerS → List ServerOp × OpManagerS
  | 0, m => ([], m)
  | n + 1, m =>
    let (op, m') := m.receiveServerOp
    let (ops, m'') := OpManagerS.receiveMany n m'
    (op :: ops, m'')

/-- `~ServerOp()`: an op with the manager back-reference set, not yet
detached and past `NOT_STARTED` is marked detached and moved into the
manager's detached list; any other op has its buffers released immediately.
The second component returns the released buffers (with their `released`
flags set) on the immediate-release path, `none` on the detach path. -/
def ServerOp.dtor (op : ServerOp) (m : OpManagerS) :
    OpManagerS × Option (Option InMessage × Option OutMessage) :=
  if op.transport = true ∧ op.detached = false ∧ op.state ≠ SState.NOT_STARTED then
    ({ m with detachedServerOps :=
        m.detachedServerOps ++ [{ op with detached := true }] }, none)
  else
    (m, some (Option.map InMessage.release op.request,
              Option.map OutMessage.release op.response))

/-- Destruction of an erased detached-list entry: every entry of the detached
list carries `detached = true` (it is set in `~ServerOp` before the move), so
its own `~ServerOp` run takes the immediate-release branch. -/
def ServerOp.destroyDetached (op : ServerOp) : ServerOp :=
  { op with request := Option.map InMessage.release op.request,
            response := Option.map OutMessage.release op.response }

/-- The detached-list walk at the end of `OpManager::poll()`: call
`makeProgress` on every entry; keep it when still `IN_PROGRESS`, erase and
destroy it (releasing its buffers) when terminal. Returns the surviving list
together with the destroyed entries; `none` models the
`assert(state != ServerOp::State::NOT_STARTED)` abort or a `makeProgress`
assert failure. -/
def pollDetachedWalk : List ServerOp → Option (List ServerOp × List ServerOp)
  | [] => some ([], [])
  | op :: rest =>
    match op.makeProgress with
    | none => none
    | some (s, op') =>
      if s = SState.NOT_STARTED then
        none
      else
        match pollDetachedWalk rest with
        | none => none
        | some (remaining, destroyed) =>
          if s = SState.IN_PROGRESS then
            some (op' :: remaining, destroyed)
          else
            some (remaining, op'.destroyDetached :: destroyed)

/-- A configuration holding one application `RemoteOp` together with the
slice of the manager it interacts with: whether the op is registered in the
remote-op map, and the id-assignment counter. This is `OpManager::poll`'s and
`RemoteOp::send`'s behaviour restricted to a single handle; the map entry is
identified with the handle itself, mirroring the pointer the source map
stores. -/
structure Client1 where
  op : RemoteOpM
  registered : Bool
  transportId : Nat
  nextOpSequenceNumber : Nat
deriving DecidableEq

/-- The events that can act on a single `RemoteOp`: the application calls
`send` or `isReady`; the transport moves the outbound request buffer's
status; an inbound message is drained by `OpManager::poll`. -/
inductive ClientEvent where
  | callSend (destination : Nat)
  | callIsReady
  | envStatus (s : OutStatus)
  | arrive (message : InMessage)
deriving DecidableEq

/-- `RemoteOp::send(destination)`: store `IN_PROGRESS`, assign the next
operation id, prepend the initial-request header carrying the local reply
address, register the op in the map, transmit the request. -/
def Client1.send (driver : Driver) (c : Client1) (destination : Nat) : Client1 :=
  let op1 : RemoteOpM := { c.op with state := RState.IN_PROGRESS }
  let opId : OpId := ⟨c.transportId, c.nextOpSequenceNumber⟩
  let header : MessageHeader :=
    ⟨opId, INITIAL_REQUEST_ID, driver.addressToWireFormat driver.localAddress⟩
  let op2 : RemoteOpM :=
    { op1 with opId := opId,
               request := (op1.request.prepend header).send destination }
  { c with op := op2,
           registered := true,
           nextOpSequenceNumber := c.nextOpSequenceNumber + 1 }

/-- The response-routing branch of `OpManager::poll`, restricted to the one
registered op: an ultimate response whose id matches the registered op is
attached (cancelling its request and completing it); anything else leaves the
op untouched. -/
def Client1.arrive (c : Client1) (message : InMessage) : Client1 :=
  let header := message.header
  let message := message.strip
  if header.stageId = ULTIMATE_RESPONSE_ID then
    if c.registered = true ∧ header.opId = c.op.opId then
      { c with op := { c.op with response := some message,
                                 request := c.op.request.cancel,
                                 state := RState.COMPLETED } }
    else
      c
  else
    c

/-- One event acting on a single-client configuration. -/
def clientStep (driver : Driver) (c : Client1) (e : ClientEvent) : Client1 :=
  match e with
  | ClientEvent.callSend destination => c.send driver destination
  | ClientEvent.callIsReady => { c with op := c.op.isReady.2 }
  | ClientEvent.envStatus s =>
    { c with op := { c.op with request := { c.op.request with status := s } } }
  | ClientEvent.arrive message => c.arrive message

/-- A sequence of events acting on a single-client configuration. -/
def clientRun (driver : Driver) (c : Client1) : List ClientEvent → Client1
  | [] => c
  | e :: es => clientRun driver (clientStep driver c e) es

/-- Admissibility of an event: `send` carries the documented precondition
that the op is still `NOT_STARTED`; every other event is always legal. -/
def eventOk (c : Client1) (e : ClientEvent) : Bool :=
  match e with
  | ClientEvent.callSend _ => decide (c.op.state = RState.NOT_STARTED)
  | _ => true

/-- Admissibility of a whole event sequence. -/
def clientRunOk (driver : Driver) (c : Client1) : List ClientEvent → Bool
  | [] => true
  | e :: es => eventOk c e && clientRunOk driver (clientStep driver c e) es

/-- Height of a `RemoteOp` state in the lattice
`NOT_STARTED → IN_PROGRESS → {COMPLETED, FAILED}`. -/
def RState.rank : RState → Nat
  | RState.NOT_STARTED => 0
  | RState.IN_PROGRESS => 1
  | RState.COMPLETED => 2
  | RState.FAILED => 2

/-- A concrete driver used for witnesses: wire encoding and decoding are the
identity. -/
def driver0 : Driver := ⟨3, fun w => w, fun a => a⟩

/-! ## Theorems -/

/-- C1: for every `ServerOp` in state `IN_PROGRESS`, `makeProgress` applies
exactly these checks in priority order: a dropped request buffer yields
`DROPPED` with no side effect; a response status of `COMPLETED`, or `SENT`
while not delegated, yields `COMPLETED` and acknowledges the request iff the
stage is not the initial request; a response status of `FAILED` yields
`FAILED` and cancels the response buffer; otherwise the op stays
`IN_PROGRESS`. In every case the resulting state is returned. -/
theorem makeProgress_from_inProgress
    (op : ServerOp) (req : InMessage)
    (hstate : op.state = SState.IN_PROGRESS)
    (hreq : op.request = some req) :
    (req.dropped = true →
      op.makeProgress = some (SState.DROPPED, { op with state := SState.DROPPED })) ∧
    (req.dropped = false →
      (op.outState = OutStatus.COMPLETED ∨
        (op.outState = OutStatus.SENT ∧ op.delegated = false)) →
      op.makeProgress = some (SState.COMPLETED,
        { op with state := SState.COMPLETED,
                  request := some (if op.stageId ≠ INITIAL_REQUEST_ID
                                   then req.acknowledge else req) })) ∧
    (req.dropped = false → op.outState = OutStatus.FAILED →
      op.makeProgress = some (SState.FAILED,
        { op with state := SState.FAILED,
                  response := Option.map OutMessage.cancel op.response })) ∧
    (req.dropped = false →
      ¬ (op.outState = OutStatus.COMPLETED ∨
          (op.outState = OutStatus.SENT ∧ op.delegated = false)) →
      op.outState ≠ OutStatus.FAILED →
      op.makeProgress = some (SState.IN_PROGRESS, op)) ∧
    (∀ s op', op.makeProgress = some (s, op') → op'.state = s) := by
  refine ⟨?_, ?_, ?_, ?_, ?_⟩
  · intro hdrop
    simp only [ServerOp.makeProgress, hstate, hreq]
    split_ifs
    simp_all
  · intro hdrop hcond
    simp only [ServerOp.makeProgress, hstate, hreq]
    split_ifs <;> simp_all
  · intro hdrop hfail
    simp only [ServerOp.makeProgress, hstate, hreq]
    split_ifs <;> simp_all
  · intro hdrop hnc hnf
    simp only [ServerOp.makeProgress, hstate, hreq]
    split_ifs <;> simp_all
  · intro s op' h
    simp only [ServerOp.makeProgress, hstate, hreq] at h
    split_ifs at h <;>
      (simp only [Option.some.injEq, Prod.mk.injEq] at h;
        obtain ⟨h1, h2⟩ := h; subst h1; subst h2; first | rfl | exact hstate)

/-- A concrete request message used in witnesses: stage 2, not dropped. -/
def reqW : InMessage := ⟨⟨⟨1, 0⟩, 2, 5⟩, true, false, 0, 0, false⟩

/-- A concrete response buffer used in witnesses: already `SENT`. -/
def respW : OutMessage := ⟨OutStatus.SENT, 32, [], [], 0, false⟩

/-- A concrete claimed, non-delegated `ServerOp` in `IN_PROGRESS`. -/
def opW : ServerOp :=
  ⟨some reqW, some respW, true, SState.IN_PROGRESS, false, ⟨1, 0⟩, 2, 5, false⟩

/-- Witness for C1: the concrete op `opW` completes and acknowledges its
request (its stage is not the initial request). -/
theorem makeProgress_from_inProgress_witness :
    opW.makeProgress = some (SState.COMPLETED,
      { opW with state := SState.COMPLETED,
                 request := some (if opW.stageId ≠ INITIAL_REQUEST_ID
                                  then reqW.acknowledge else reqW) }) :=
  (makeProgress_from_inProgress opW reqW rfl rfl).2.1 rfl (Or.inr ⟨rfl, rfl⟩)

/-- One `makeProgress` call on a terminal op keeps the state, the request's
acknowledge count, the request's presence and the detachment flag, and leaves
the response buffer untouched. -/
theorem makeProgress_terminal_step
    (op : ServerOp)
    (hterm : op.state = SState.COMPLETED ∨ op.state = SState.DROPPED ∨
      op.state = SState.FAILED)
    (hreq : op.state = SState.FAILED → op.detached = true → op.request.isSome = true) :
    ∃ op', op.makeProgress = some (op.state, op') ∧
      op'.state = op.state ∧
      op'.detached = op.detached ∧
      Option.map InMessage.ackCount op'.request =
        Option.map InMessage.ackCount op.request ∧
      op'.request.isSome = op.request.isSome ∧
      op'.response = op.response := by
  rcases hterm with h | h | h
  · exact ⟨op, by simp [ServerOp.makeProgress, h]⟩
  · exact ⟨op, by simp [ServerOp.makeProgress, h]⟩
  · by_cases hd : op.detached = true
    · rcases hr : op.request with _ | req
      · exact absurd (hreq h hd) (by simp [hr])
      · exact ⟨{ op with request := some req.fail },
          by simp [ServerOp.makeProgress, h, hd, hr, InMessage.fail]⟩
    · exact ⟨op, by simp [ServerOp.makeProgress, h, hd]⟩

/-- C9: for every `ServerOp` in a terminal state (`COMPLETED`, `DROPPED` or
`FAILED`), any number of additional `makeProgress` calls returns the same
state, never acknowledges the request buffer again and never cancels the
response buffer again (the response buffer is untouched entirely). -/
theorem makeProgress_terminal_idempotent
    (op : ServerOp) (n : Nat)
    (hterm : op.state = SState.COMPLETED ∨ op.state = SState.DROPPED ∨
      op.state = SState.FAILED)
    (hreq : op.state = SState.FAILED → op.detached = true → op.request.isSome = true) :
    (∀ s op'', op.makeProgress = some (s, op'') → s = op.state) ∧
    ∃ op', op.makeProgressIter n = some op' ∧
      op'.state = op.state ∧
      Option.map InMessage.ackCount op'.request =
        Option.map InMessage.ackCount op.request ∧
      op'.response = op.response := by
  constructor
  · intro s op'' h
    obtain ⟨op', h1, -⟩ := makeProgress_terminal_step op hterm hreq
    rw [h1] at h
    exact (Prod.mk.injEq _ _ _ _ ▸ Option.some.injEq _ _ ▸ h : _ ∧ _).1.symm
  · induction n generalizing op with
    | zero => exact ⟨op, rfl, rfl, rfl, rfl⟩
    | succ n ih =>
      obtain ⟨op1, h1, hs, hd, hack, hsome, hresp⟩ :=
        makeProgress_terminal_step op hterm hreq
      obtain ⟨op', hiter, hs', hack', hresp'⟩ :=
        ih op1 (by rw [hs]; exact hterm) (by rw [hs, hd, hsome]; exact hreq)
      refine ⟨op', ?_, by rw [hs', hs], by rw [hack', hack], by rw [hresp', hresp]⟩
      simpa [ServerOp.makeProgressIter, h1] using hiter

/-- A concrete terminal (`FAILED`), detached op used as the C9 witness. -/
def opT : ServerOp :=
  ⟨some reqW, some respW, true, SState.FAILED, true, ⟨1, 0⟩, 2, 5, false⟩

/-- Witness for C9: three further `makeProgress` calls on the concrete
terminal op `opT` keep the state and produce no acknowledge and no cancel. -/
theorem makeProgress_terminal_idempotent_witness :
    ∃ op', opT.makeProgressIter 3 = some op' ∧
      op'.state = opT.state ∧
      Option.map InMessage.ackCount op'.request =
        Option.map InMessage.ackCount opT.request ∧
      op'.response = opT.response :=
  (makeProgress_terminal_idempotent opT 3 (by decide) (fun _ _ => by decide)).2

/-- The request buffer of the failing input for C2: stage 0, not dropped,
never failed, never released. -/
def reqF : InMessage := ⟨⟨⟨1, 0⟩, 0, 5⟩, true, false, 0, 0, false⟩

/-- The response buffer of the failing input for C2: the transport has marked
it `FAILED`. -/
def respF : OutMessage := ⟨OutStatus.FAILED, 32, [], [], 0, false⟩

/-- The failing input for C2: a detached `ServerOp`, still `IN_PROGRESS`,
sitting in the manager's detached list, whose response has failed. -/
def opF : ServerOp :=
  ⟨some reqF, some respF, true, SState.IN_PROGRESS, true, ⟨1, 0⟩, 0, 5, false⟩

/-- C2 (code bug): the detached-list walk of `OpManager::poll` drives `opF`
to `FAILED`, immediately erases and destroys it, and the destroyed op's
request buffer has `failCount = 0`: `InMessage::fail()` was never invoked on
it, although the op is detached and ended in `FAILED`. (`makeProgress` only
calls `fail()` on a call that already starts in `FAILED`, but `poll` destroys
the op as soon as `makeProgress` returns `FAILED`.) -/
theorem detached_poll_failure_skips_request_fail :
    pollDetachedWalk [opF] =
      some ([], [{ opF with
          state := SState.FAILED,
          request := some { reqF with released := true },
          response := some { respF with cancelCount := 1, released := true } }]) ∧
    ({ reqF with released := true } : InMessage).failCount = 0 := by
  decide

/-- C8: `RemoteOp::isReady()` returns true iff the state is `COMPLETED` or
`FAILED`, with lazy failure detection: in `IN_PROGRESS` with a `FAILED`
request buffer it moves the state to `FAILED` and returns true; in every
other `NOT_STARTED` or `IN_PROGRESS` case it returns false and leaves the op
unchanged. -/
theorem isReady_characterisation (op : RemoteOpM) :
    (op.state = RState.NOT_STARTED → op.isReady = (false, op)) ∧
    (op.state = RState.IN_PROGRESS → op.request.status = OutStatus.FAILED →
      op.isReady = (true, { op with state := RState.FAILED })) ∧
    (op.state = RState.IN_PROGRESS → op.request.status ≠ OutStatus.FAILED →
      op.isReady = (false, op)) ∧
    (op.state = RState.COMPLETED → op.isReady = (true, op)) ∧
    (op.state = RState.FAILED → op.isReady = (true, op)) ∧
    (op.isReady.1 = true ↔
      (op.isReady.2.state = RState.COMPLETED ∨ op.isReady.2.state = RState.FAILED)) := by
  refine ⟨?_, ?_, ?_, ?_, ?_, ?_⟩ <;>
    (rcases h : op.state <;>
      simp [RemoteOpM.isReady, h] <;> split_ifs <;> simp_all)

/-- A concrete in-flight `RemoteOp` whose request the transport has failed:
input for the C8 witness. -/
def ropF : RemoteOpM :=
  ⟨⟨OutStatus.FAILED, 32, [], [5], 0, false⟩, none, RState.IN_PROGRESS, ⟨1, 0⟩⟩

/-- Witness for C8: on `ropF`, `isReady` detects the failed transmission,
moves the state to `FAILED` and returns true. -/
theorem isReady_characterisation_witness :
    ropF.isReady = (true, { ropF with state := RState.FAILED }) :=
  (isReady_characterisation ropF).2.1 rfl rfl

/-- C6: on a non-empty claimed op, `delegate(destination)` sets the delegated
flag, prepends a header carrying the op's operation id, `stageId + 1` and the
wire-encoded recorded reply address, and sends the response buffer to
`destination`; once an op is delegated, `makeProgress` no longer completes on
a response status of `SENT` (the op stays `IN_PROGRESS`) and completes on
status `COMPLETED`; `delegate` on an empty op is a no-op with a diagnostic. -/
theorem delegate_characterisation
    (driver : Driver) (op : ServerOp) (destination : Nat) :
    (∀ resp, op.request.isSome = true → op.response = some resp →
      op.delegate driver destination = some
        ({ op with delegated := true,
                   response := some ((resp.prepend
                       ⟨op.opId, op.stageId + 1,
                        driver.addressToWireFormat op.replyAddress⟩).send destination) },
         false)) ∧
    (op.request = none → op.delegate driver destination = some (op, true)) ∧
    (∀ q : ServerOp, ∀ req resp, q.delegated = true → q.state = SState.IN_PROGRESS →
      q.request = some req → req.dropped = false → q.response = some resp →
      (resp.status = OutStatus.SENT → q.makeProgress = some (SState.IN_PROGRESS, q)) ∧
      (resp.status = OutStatus.COMPLETED →
        ∃ q', q.makeProgress = some (SState.COMPLETED, q') ∧
          q'.state = SState.COMPLETED)) := by
  refine ⟨?_, ?_, ?_⟩
  · intro resp hsome hresp
    rcases hr : op.request with _ | req
    · rw [hr] at hsome; exact absurd hsome (by simp)
    · simp [ServerOp.delegate, hr, hresp]
  · intro h
    simp [ServerOp.delegate, h]
  · intro q req resp hdel hq hqr hdrop hqresp
    constructor
    · intro hsent
      simp [ServerOp.makeProgress, ServerOp.outState, hq, hqr, hqresp, hdrop,
        hsent, hdel]
    · intro hcompl
      have hgoal : q.makeProgress = some (SState.COMPLETED,
          { q with state := SState.COMPLETED,
                   request := some (if q.stageId ≠ INITIAL_REQUEST_ID
                                    then req.acknowledge else req) }) := by
        simp [ServerOp.makeProgress, ServerOp.outState, hq, hqr, hqresp, hdrop,
          hcompl]
      exact ⟨_, hgoal, rfl⟩

/-- A concrete claimed `ServerOp` at stage 2 used as the C6 witness input. -/
def opD : ServerOp :=
  ⟨some reqW, some (OutMessage.allocFresh.reserve sizeofHeader), true,
   SState.IN_PROGRESS, false, ⟨1, 0⟩, 2, 5, false⟩

/-- Witness for C6: delegating `opD` to destination 8 marks it delegated,
prepends the header with stage 3 and sends the response to 8. -/
theorem delegate_characterisation_witness :
    opD.delegate driver0 8 = some
      ({ opD with delegated := true,
                  response := some (((OutMessage.allocFresh.reserve
                      sizeofHeader).prepend
                      ⟨opD.opId, opD.stageId + 1,
                       driver0.addressToWireFormat opD.replyAddress⟩).send 8) },
       false) :=
  (delegate_characterisation driver0 opD 8).1
    (OutMessage.allocFresh.reserve sizeofHeader) rfl rfl

/-- The transformation `OpManager::receiveServerOp` applies to the pending op
it pops: allocate the response buffer with header space reserved, set the
manager back-reference, move to `IN_PROGRESS`. -/
def claimOp (op : ServerOp) : ServerOp :=
  { op with response := some (OutMessage.allocFresh.reserve sizeofHeader),
            transport := true,
            state := SState.IN_PROGRESS }

/-- Popping `n` ops via `receiveMany` returns exactly the first `n` pending
entries, in arrival order, each claimed. -/
theorem receiveMany_take (n : Nat) :
    ∀ m : OpManagerS, n ≤ m.pendingServerOps.length →
      (OpManagerS.receiveMany n m).1 = (m.pendingServerOps.take n).map claimOp := by
  induction n with
  | zero => intro m _; rfl
  | succ n ih =>
    intro m hle
    rcases hp : m.pendingServerOps with _ | ⟨front, rest⟩
    · rw [hp] at hle; exact absurd hle (by simp)
    · have h1 : m.receiveServerOp = (claimOp front, { m with pendingServerOps := rest }) := by
        simp [OpManagerS.receiveServerOp, hp, claimOp]
      have h2 := ih { m with pendingServerOps := rest }
        (by rw [hp] at hle; simpa using Nat.le_of_succ_le_succ hle)
      simp [OpManagerS.receiveMany, h1, hp, h2]

/-- C7: `receiveServerOp` pops pending ops in strict arrival (FIFO) order; on
an empty queue it returns the empty (boolean-false) `ServerOp` and leaves the
manager unchanged; on a pop it allocates the response buffer with header space
reserved, sets the manager back-reference and the `IN_PROGRESS` state. -/
theorem receiveServerOp_characterisation (m : OpManagerS) :
    (m.pendingServerOps = [] →
      m.receiveServerOp = (ServerOp.empty, m) ∧ ServerOp.empty.nonEmpty = false) ∧
    (∀ front rest, m.pendingServerOps = front :: rest →
      m.receiveServerOp = (claimOp front, { m with pendingServerOps := rest }) ∧
      (claimOp front).state = SState.IN_PROGRESS ∧
      (claimOp front).response = some (OutMessage.allocFresh.reserve sizeofHeader) ∧
      (claimOp front).transport = true) ∧
    (∀ n, n ≤ m.pendingServerOps.length →
      (OpManagerS.receiveMany n m).1 = (m.pendingServerOps.take n).map claimOp) := by
  refine ⟨?_, ?_, fun n => receiveMany_take n m⟩
  · intro hp
    exact ⟨by simp [OpManagerS.receiveServerOp, hp], rfl⟩
  · intro front rest hp
    refine ⟨by simp [OpManagerS.receiveServerOp, hp, claimOp], rfl, rfl, rfl⟩

/-- Two distinguishable pending ops used as the C7 witness input. -/
def pendA : ServerOp := { ServerOp.empty with request := some reqF, stageId := 0 }

/-- Second pending op of the C7 witness, carrying a different stage. -/
def pendB : ServerOp := { ServerOp.empty with request := some reqW, stageId := 2 }

/-- A concrete manager with two pending ops, `pendA` older than `pendB`. -/
def mgr2 : OpManagerS := ⟨1, 0, [], [pendA, pendB], [], []⟩

/-- Witness for C7: popping twice from `mgr2` yields the claimed `pendA` then
the claimed `pendB` — strict arrival order. -/
theorem receiveServerOp_characterisation_witness :
    (OpManagerS.receiveMany 2 mgr2).1 = [claimOp pendA, claimOp pendB] :=
  (receiveServerOp_characterisation mgr2).2.2 2 (by decide)

/-- C4: for every message drained by `poll`: an ultimate response whose
operation id is registered is attached as that `RemoteOp`'s response, the
op's request is cancelled and its state set to `COMPLETED`; an ultimate
response with no registered op is released (and nothing else changes); every
other message becomes a fresh pending `ServerOp` carrying the message, its
operation id, its stage id and the decoded reply address. -/
theorem poll_message_routing
    (driver : Driver) (m : OpManagerS) (message : InMessage) :
    (message.header.stageId = ULTIMATE_RESPONSE_ID →
      (∀ rop, assocFind m.remoteOps message.header.opId = some rop →
        m.processMessage driver message =
          { m with remoteOps :=
              (assocUpdate m.remoteOps message.header.opId
                { rop with response := some message.strip,
                           request := rop.request.cancel,
                           state := RState.COMPLETED }) }) ∧
      (assocFind m.remoteOps message.header.opId = none →
        m.processMessage driver message =
          { m with releasedMessages :=
              m.releasedMessages ++ [message.strip.release] })) ∧
    (message.header.stageId ≠ ULTIMATE_RESPONSE_ID →
      m.processMessage driver message =
        { m with pendingServerOps := m.pendingServerOps ++
            [{ ServerOp.empty with
                request := some message.strip,
                opId := message.header.opId,
                stageId := message.header.stageId,
                replyAddress := driver.getAddress message.header.replyAddress }] }) := by
  refine ⟨fun hu => ⟨?_, ?_⟩, fun hnu => ?_⟩
  · intro rop hfind
    simp [OpManagerS.processMessage, hu, hfind]
  · intro hfind
    simp [OpManagerS.processMessage, hu, hfind]
  · simp [OpManagerS.processMessage, hnu]

/-- A concrete registered in-flight `RemoteOp`, target of the C4 witness. -/
def ropW : RemoteOpM :=
  ⟨⟨OutStatus.SENT, 32, [], [5], 0, false⟩, none, RState.IN_PROGRESS, ⟨1, 0⟩⟩

/-- A concrete manager with `ropW` registered under id `⟨1, 0⟩`. -/
def mgrR : OpManagerS := ⟨1, 1, [(⟨1, 0⟩, ropW)], [], [], []⟩

/-- A concrete ultimate response carrying operation id `⟨1, 0⟩`. -/
def msgU : InMessage := ⟨⟨⟨1, 0⟩, ULTIMATE_RESPONSE_ID, 9⟩, false, false, 0, 0, false⟩

/-- Witness for C4: draining `msgU` attaches it to `ropW`, cancels `ropW`'s
request and completes it. -/
theorem poll_message_routing_witness :
    mgrR.processMessage driver0 msgU =
      { mgrR with remoteOps :=
          (assocUpdate mgrR.remoteOps msgU.header.opId
            { ropW with response := some msgU.strip,
                        request := ropW.request.cancel,
                        state := RState.COMPLETED }) } :=
  ((poll_message_routing driver0 mgrR msgU).1 rfl).1 ropW rfl

/-- A fresh single-client configuration: transport id 1, no id assigned yet,
not registered. -/
def client0 : Client1 := ⟨RemoteOpM.fresh, false, 1, 0⟩

/-- An ultimate response addressed to operation id `⟨1, 0⟩` — the id that
`client0`'s `send` will be assigned. -/
def lateResponse : InMessage :=
  ⟨⟨⟨1, 0⟩, ULTIMATE_RESPONSE_ID, 9⟩, false, false, 0, 0, false⟩

/-- Event sequence driving `client0` to `FAILED` with legal calls only:
`send`, then the transport marks the outbound request `FAILED`, then
`isReady` observes the failure lazily. -/
def evsFail : List ClientEvent :=
  [ClientEvent.callSend 5, ClientEvent.envStatus OutStatus.FAILED,
   ClientEvent.callIsReady]

/-- C5 counterexample: an admissible sequence of `send`, `isReady` and `poll`
events (each call respecting its documented precondition) takes the
`RemoteOp` to `FAILED`, and one further `poll` event — a late ultimate
response for the still-registered op — moves it to `COMPLETED`. So "once
COMPLETED or FAILED is reached, no operation changes the state to any other
value" is false as stated. -/
theorem remoteOp_backward_counterexample :
    clientRunOk driver0 client0 (evsFail ++ [ClientEvent.arrive lateResponse]) =
      true ∧
    (clientRun driver0 client0 evsFail).op.state = RState.FAILED ∧
    (clientRun driver0 client0
        (evsFail ++ [ClientEvent.arrive lateResponse])).op.state =
      RState.COMPLETED := by
  decide

/-- C5 (amended): across admissible sequences of `send`, `isReady` and poll
events (`send` only from `NOT_STARTED`, its documented precondition), a
`RemoteOp`'s state never moves down the lattice
`NOT_STARTED → IN_PROGRESS → {COMPLETED, FAILED}`: the rank never decreases,
`NOT_STARTED` is never re-entered, `IN_PROGRESS` is entered only from
`NOT_STARTED`, and `COMPLETED` is absorbing. From `FAILED` the state either
stays `FAILED` or — the one exception the code allows — moves to `COMPLETED`
when a poll drains a late ultimate response for the still-registered op. -/
theorem remoteOp_state_forward_amended
    (driver : Driver) (c : Client1) (e : ClientEvent)
    (hok : eventOk c e = true) :
    RState.rank c.op.state ≤ RState.rank (clientStep driver c e).op.state ∧
    (c.op.state = RState.COMPLETED →
      (clientStep driver c e).op.state = RState.COMPLETED) ∧
    (c.op.state = RState.FAILED →
      (clientStep driver c e).op.state = RState.FAILED ∨
      ((clientStep driver c e).op.state = RState.COMPLETED ∧
        ∃ message, e = ClientEvent.arrive message)) ∧
    ((clientStep driver c e).op.state = RState.NOT_STARTED →
      c.op.state = RState.NOT_STARTED) ∧
    ((clientStep driver c e).op.state = RState.IN_PROGRESS →
      c.op.state = RState.NOT_STARTED ∨ c.op.state = RState.IN_PROGRESS) := by
  cases e with
  | callSend destination =>
    simp only [eventOk, decide_eq_true_eq] at hok
    simp [clientStep, Client1.send, hok, RState.rank]
  | callIsReady =>
    rcases h : c.op.state <;>
      (simp [clientStep, RemoteOpM.isReady, h, RState.rank];
        try (split_ifs <;> simp_all [RState.rank]))
  | envStatus s =>
    simp only [clientStep]
    exact ⟨le_refl _, fun h => h, fun h => Or.inl h, fun h => h,
      fun h => Or.inr h⟩
  | arrive message =>
    rcases h : c.op.state <;>
      (simp [clientStep, Client1.arrive, h, RState.rank];
        try (split_ifs <;> simp_all [RState.rank]))

/-- Witness for the amended C5: the first admissible `send` on the fresh
configuration does not decrease the state's rank. -/
theorem remoteOp_state_forward_amended_witness :
    RState.rank client0.op.state ≤
      RState.rank (clientStep driver0 client0 (ClientEvent.callSend 5)).op.state :=
  (remoteOp_state_forward_amended driver0 client0 (ClientEvent.callSend 5)
    (by decide)).1

/-- On a detached-list entry (detached, past `NOT_STARTED`, request present),
`makeProgress` succeeds, returns the updated op's state, never yields
`NOT_STARTED`, and preserves detachment and the presence of the request. -/
theorem makeProgress_detached_entry (o : ServerOp)
    (hns : o.state ≠ SState.NOT_STARTED)
    (hdet : o.detached = true)
    (hreq : o.request.isSome = true) :
    ∃ s o', o.makeProgress = some (s, o') ∧ o'.state = s ∧
      s ≠ SState.NOT_STARTED ∧ o'.detached = true ∧ o'.request.isSome = true := by
  rcases hr : o.request with _ | req
  · rw [hr] at hreq; exact absurd hreq (by simp)
  · rcases hst : o.state with h | h | h | h | h
    · exact absurd hst hns
    · simp only [ServerOp.makeProgress, hst, hr]
      split_ifs <;>
        first
        | exact ⟨_, _, rfl, rfl, by simp, hdet, by simp⟩
        | exact ⟨_, _, rfl, hst, by simp, hdet, hreq⟩
    · exact ⟨_, _, by simp [ServerOp.makeProgress, hst], hst, by simp, hdet,
        by simp [hr]⟩
    · exact ⟨_, _, by simp [ServerOp.makeProgress, hst], hst, by simp, hdet,
        by simp [hr]⟩
    · refine ⟨SState.FAILED, { o with request := some req.fail }, ?_, hst, by simp,
        hdet, by simp⟩
      simp [ServerOp.makeProgress, hst, hdet, hr]

/-- The detached-list walk keeps exactly the entries still `IN_PROGRESS`
(preserving the detached-entry invariant) and destroys the rest, which are
all terminal and have every buffer released. -/
theorem pollDetachedWalk_props :
    ∀ dops : List ServerOp,
      (∀ o ∈ dops, o.detached = true ∧ o.state ≠ SState.NOT_STARTED ∧
        o.request.isSome = true) →
      ∃ remaining destroyed,
        pollDetachedWalk dops = some (remaining, destroyed) ∧
        remaining.length + destroyed.length = dops.length ∧
        (∀ o ∈ remaining, o.state = SState.IN_PROGRESS ∧ o.detached = true ∧
          o.state ≠ SState.NOT_STARTED ∧ o.request.isSome = true) ∧
        (∀ o ∈ destroyed,
          (o.state = SState.COMPLETED ∨ o.state = SState.DROPPED ∨
            o.state = SState.FAILED) ∧
          (∀ r, o.request = some r → r.released = true) ∧
          (∀ r, o.response = some r → r.released = true)) := by
  intro dops
  induction dops with
  | nil => exact fun _ => ⟨[], [], rfl, rfl, by simp, by simp⟩
  | cons op rest ih =>
    intro h
    obtain ⟨hdet, hns, hreq⟩ := h op (by simp)
    obtain ⟨s, op', hmp, hs', hsns, hdet', hreq'⟩ :=
      makeProgress_detached_entry op hns hdet hreq
    obtain ⟨rem, des, hwalk, hlen, hrem, hdes⟩ :=
      ih (fun o ho => h o (by simp [ho]))
    by_cases hsip : s = SState.IN_PROGRESS
    · refine ⟨op' :: rem, des, ?_, by simp only [List.length_cons]; omega, ?_, hdes⟩
      · simp [pollDetachedWalk, hmp, hsns, hwalk, hsip]
      · intro o ho
        rcases (List.mem_cons).mp ho with ho | ho
        · subst ho
          refine ⟨hs'.trans hsip, hdet', ?_, hreq'⟩
          rw [hs'.trans hsip]
          simp
        · exact hrem o ho
    · refine ⟨rem, op'.destroyDetached :: des, ?_,
        by simp only [List.length_cons]; omega, hrem, ?_⟩
      · simp [pollDetachedWalk, hmp, hsns, hwalk, hsip]
      · intro o ho
        rcases (List.mem_cons).mp ho with ho | ho
        · subst ho
          refine ⟨?_, ?_, ?_⟩
          · have hst : op'.destroyDetached.state = s := by
              simp [ServerOp.destroyDetached, hs']
            rw [hst]
            rcases s with _ | _ | _ | _ | _
            · exact absurd rfl hsns
            · exact absurd rfl hsip
            · exact Or.inl rfl
            · exact Or.inr (Or.inl rfl)
            · exact Or.inr (Or.inr rfl)
          · intro r hr
            rcases hq : op'.request with _ | q
            · simp [ServerOp.destroyDetached, hq] at hr
            · simp [ServerOp.destroyDetached, hq, InMessage.release] at hr
              rw [← hr]
          · intro r hr
            rcases hq : op'.response with _ | q
            · simp [ServerOp.destroyDetached, hq] at hr
            · simp [ServerOp.destroyDetached, hq, OutMessage.release] at hr
              rw [← hr]
        · exact hdes o ho

/-- C3: when a `ServerOp` is destroyed: if it is non-empty, not already
detached and not in `NOT_STARTED`, its buffers are not released — it is
marked detached and appended to the manager's detached list; in every other
case its buffers are released immediately. Detached-list entries are then
driven by `poll`'s walk via `makeProgress`: entries still `IN_PROGRESS`
survive with the detached-entry invariant intact (so later polls keep
driving them), and every entry that reached a terminal state (`COMPLETED`,
`DROPPED` or `FAILED`) is removed from the list with its buffers released.
The hypothesis `htr` is the reachability invariant that an op past
`NOT_STARTED` has the manager back-reference exactly when it has a request
(both are set on the claim path and null on fresh/moved-from ops). -/
theorem serverOp_destruction
    (op : ServerOp) (m : OpManagerS)
    (htr : op.state ≠ SState.NOT_STARTED → op.transport = op.request.isSome) :
    (op.request.isSome = true → op.detached = false →
      op.state ≠ SState.NOT_STARTED →
      op.dtor m =
        ({ m with detachedServerOps :=
            m.detachedServerOps ++ [{ op with detached := true }] }, none)) ∧
    (¬ (op.request.isSome = true ∧ op.detached = false ∧
        op.state ≠ SState.NOT_STARTED) →
      op.dtor m = (m, some (Option.map InMessage.release op.request,
                            Option.map OutMessage.release op.response))) ∧
    (∀ dops : List ServerOp,
      (∀ o ∈ dops, o.detached = true ∧ o.state ≠ SState.NOT_STARTED ∧
        o.request.isSome = true) →
      ∃ remaining destroyed,
        pollDetachedWalk dops = some (remaining, destroyed) ∧
        remaining.length + destroyed.length = dops.length ∧
        (∀ o ∈ remaining, o.state = SState.IN_PROGRESS ∧ o.detached = true ∧
          o.state ≠ SState.NOT_STARTED ∧ o.request.isSome = true) ∧
        (∀ o ∈ destroyed,
          (o.state = SState.COMPLETED ∨ o.state = SState.DROPPED ∨
            o.state = SState.FAILED) ∧
          (∀ r, o.request = some r → r.released = true) ∧
          (∀ r, o.response = some r → r.released = true))) := by
  refine ⟨?_, ?_, pollDetachedWalk_props⟩
  · intro hsome hdet hns
    have ht : op.transport = true := (htr hns).trans hsome
    simp [ServerOp.dtor, ht, hdet, hns]
  · intro hn
    have hcond : ¬ (op.transport = true ∧ op.detached = false ∧
        op.state ≠ SState.NOT_STARTED) := by
      rintro ⟨ht, hd, hs⟩
      exact hn ⟨(htr hs).symm.trans ht, hd, hs⟩
    simp [ServerOp.dtor, hcond]

/-- Witness for C3: destroying the claimed in-progress op `opW` does not
release its buffers — it is appended, marked detached, to `mgr2`'s detached
list. -/
theorem serverOp_destruction_witness :
    opW.dtor mgr2 =
      ({ mgr2 with detachedServerOps :=
          mgr2.detachedServerOps ++ [{ opW with detached := true }] }, none) :=
  (serverOp_destruction opW mgr2 (fun _ => rfl)).1 rfl rfl (by decide)

/-- The invariant satisfied by every op in the manager's pending FIFO:
request present, no response buffer, no manager back-reference, state
`NOT_STARTED`, not detached, not delegated. -/
def pendingInv (op : ServerOp) : Prop :=
  op.request.isSome = true ∧ op.response = none ∧ op.transport = false ∧
  op.state = SState.NOT_STARTED ∧ op.detached = false ∧ op.delegated = false

instance (op : ServerOp) : Decidable (pendingInv op) := by
  unfold pendingInv
  infer_instance

/-- C10: every op in the pending FIFO has a request, no response buffer, no
manager back-reference, state `NOT_STARTED` and clear detached/delegated
flags: the invariant is established by `poll`'s enqueue and preserved by
message processing and by `receiveServerOp` (which only removes from the
queue — pending ops never acquire a response, a back-reference or
`IN_PROGRESS` while queued), and under it a pending op destroyed by the
manager (as in `~OpManager`) always takes the immediate-release path of
`~ServerOp` and never enters the detached list. -/
theorem pending_fifo_invariant
    (driver : Driver) (m : OpManagerS) (message : InMessage)
    (hinv : ∀ op ∈ m.pendingServerOps, pendingInv op) :
    (∀ op ∈ (m.processMessage driver message).pendingServerOps, pendingInv op) ∧
    (∀ op ∈ m.receiveServerOp.2.pendingServerOps, pendingInv op) ∧
    (∀ op ∈ m.pendingServerOps,
      op.dtor m = (m, some (Option.map InMessage.release op.request,
                            Option.map OutMessage.release op.response))) := by
  refine ⟨?_, ?_, ?_⟩
  · intro op hop
    by_cases hu : message.header.stageId = ULTIMATE_RESPONSE_ID
    · rcases hf : assocFind m.remoteOps message.header.opId with _ | rop
      · simp [OpManagerS.processMessage, hu, hf] at hop
        exact hinv op hop
      · simp [OpManagerS.processMessage, hu, hf] at hop
        exact hinv op hop
    · simp [OpManagerS.processMessage, hu] at hop
      rcases hop with hop | hop
      · exact hinv op hop
      · subst hop
        exact ⟨by simp, rfl, rfl, rfl, rfl, rfl⟩
  · intro op hop
    rcases hp : m.pendingServerOps with _ | ⟨front, rest⟩
    · simp [OpManagerS.receiveServerOp, hp] at hop
    · simp [OpManagerS.receiveServerOp, hp] at hop
      exact hinv op (by rw [hp]; exact List.mem_cons_of_mem _ hop)
  · intro op hop
    have hf : op.transport = false := (hinv op hop).2.2.1
    have hcond : ¬ (op.transport = true ∧ op.detached = false ∧
        op.state ≠ SState.NOT_STARTED) := by
      rintro ⟨ht, -, -⟩
      rw [hf] at ht
      exact Bool.false_ne_true ht
    simp [ServerOp.dtor, hcond]

/-- Witness for C10: the pending op `pendA` of `mgr2` (whose pending queue
satisfies the invariant), destroyed by the manager, takes the
immediate-release path. -/
theorem pending_fifo_invariant_witness :
    pendA.dtor mgr2 =
      (mgr2, some (Option.map InMessage.release pendA.request,
                   Option.map OutMessage.release pendA.response)) :=
  (pending_fifo_invariant driver0 mgr2 msgU (by decide)).2.2 pendA (by decide)

end Homa
